import Mathlib

/-!
Shallow embedding of the devzat-rs plugin client (src/src/lib.rs) and proofs
about its session behaviour.  Generated protobuf types (the `plugin` module
produced by tonic from proto/devzat.proto) are modelled as plain structures;
the streaming sessions of `register_listener` and `register_cmd` are modelled
as pure functions from the list of inbound frames to a trace of observable
actions together with a session outcome.
-/

/-- An inbound chat event delivered to a listener callback
(generated message `plugin::Event`). -/
structure Event where
  room : String
  «from» : String
  msg : String
deriving Repr, DecidableEq

/-- The listener registration data (generated message `plugin::Listener`);
all three fields are `optional` in the proto, hence `Option` here
(the doc example in lib.rs sets each of them to `None`). -/
structure Listener where
  middleware : Option Bool
  once : Option Bool
  regex : Option String
deriving Repr, DecidableEq

/-- The prost-generated getter `Listener::middleware()` used at lib.rs:149:
for an `optional bool` field prost generates `self.middleware.unwrap_or(false)`,
i.e. an absent flag reads as `false`.  (The generated code is produced by
build.rs from the proto schema and is not itself under src/.) -/
def Listener.middlewareGet (l : Listener) : Bool :=
  l.middleware.getD false

/-- Reply a middleware listener sends back after one event
(generated message `plugin::MiddlewareResponse`, field `msg: Option<String>`). -/
structure MiddlewareResponse where
  msg : Option String
deriving Repr, DecidableEq

/-- The oneof payload of `ListenerClientData` (generated enum
`listener_client_data::Data`): either the initial `Listener` registration or a
`MiddlewareResponse`. -/
inductive Data where
  | listener (l : Listener)
  | response (r : MiddlewareResponse)
deriving Repr, DecidableEq

/-- One frame of the client-to-host stream of `register_listener`
(generated message `plugin::ListenerClientData`). -/
structure ListenerClientData where
  data : Option Data
deriving Repr, DecidableEq

/-- A chat message to send (generated message `plugin::Message`); `from` and
`ephemeral_to` are `optional` in the proto, so presence is explicit. -/
structure Message where
  room : String
  «from» : Option String
  msg : String
  ephemeral_to : Option String
deriving Repr, DecidableEq

/-- One inbound command invocation (generated message `plugin::CmdInvocation`). -/
structure CmdInvocation where
  room : String
  «from» : String
  args : String
deriving Repr, DecidableEq

/-- A command definition registered with the host
(generated message `plugin::CmdDef`), built in `Client::register_cmd`. -/
structure CmdDef where
  name : String
  info : String
  args_info : String
deriving Repr, DecidableEq

/-- `Client::send_message` (lib.rs:86-103) builds the request `Message`
verbatim from its four arguments: optional arguments are passed through
unchanged, never defaulted to an empty string. -/
def send_message (room : String) (f : Option String) (msg : String)
    (ephemeral_to : Option String) : Message :=
  { room := room, «from» := f, msg := msg, ephemeral_to := ephemeral_to }

/-- Validity of a string as a gRPC header value, the check performed by
`"Bearer {token}".parse::<MetadataValue<Ascii>>()` in `AuthInterceptor::new`
(lib.rs:34).  The parse goes through `http::HeaderValue::from_str`, whose
per-byte validator is `b >= 32 && b != 127 || b == 9`: horizontal tab and all
bytes from 0x20 upward except DEL are accepted, obs-text bytes 0x80-0xFF
included — so non-ASCII text is accepted; only control characters (other than
tab) and DEL are rejected.  Characters at or above U+0080 have all their
UTF-8 bytes at or above 0x80, which the byte validator accepts, and such
characters satisfy the per-character test below, so the per-character check
agrees with the byte-level one. -/
def isValidHeaderValue (s : String) : Bool :=
  s.data.all fun c => (32 ≤ c.toNat && c.toNat != 127) || c.toNat = 9

/-- The interceptor state: the pre-parsed `authorization` header value
(`MetadataValue<Ascii>` modelled by its string contents). -/
structure AuthInterceptor where
  token : String
deriving Repr, DecidableEq

/-- Insert a header into request metadata, replacing any existing value for
the same key (the behaviour of tonic `MetadataMap::insert`). -/
def insertHeader (meta : List (String × String)) (k v : String) :
    List (String × String) :=
  meta.filter (fun p => !(p.1 == k)) ++ [(k, v)]

/-- Look up a header value in request metadata. -/
def getHeader (meta : List (String × String)) (k : String) : Option String :=
  (meta.find? (fun p => p.1 == k)).map Prod.snd

/-- `AuthInterceptor::call` (lib.rs:40-45): every outgoing request, unary or
streaming, gets `authorization` set to a clone of the stored token value. -/
def AuthInterceptor.call (a : AuthInterceptor) (meta : List (String × String)) :
    List (String × String) :=
  insertHeader meta "authorization" a.token

/-- Result of `Client::new` (lib.rs:49-55).  The dial can fail (propagated with
the question-mark operator); an invalid token makes `AuthInterceptor::new`
panic on `parse().unwrap()` rather than return a typed error. -/
inductive ConnectOutcome where
  | ok (auth : AuthInterceptor)
  | dialErr (e : String)
  | panickedInvalidToken
deriving Repr, DecidableEq

/-- `Client::new` (lib.rs:49-55): first dials the channel (line 50; failure is
returned to the caller), then builds the interceptor from
`format!("Bearer {}", token).parse().unwrap()` (line 34) — a malformed token
causes a panic, not a returned error.  The transport dial is abstracted by the
`dial` argument. -/
def Client.new (dial : Except String Unit) (token : String) : ConnectOutcome :=
  match dial with
  | .error e => .dialErr e
  | .ok _ =>
    if isValidHeaderValue ("Bearer " ++ token) then
      .ok { token := "Bearer " ++ token }
    else
      .panickedInvalidToken

/-- One observable action of a listener session.  `write` is a frame actually
written on the client-to-host stream; `buildData` records the construction of
a `Data` value that is *not* written anywhere (lib.rs:156 builds
`Data::Response(MiddlewareResponse { msg: result })` and immediately discards
it — the TBD comment on lines 153-154 admits the write is unimplemented). -/
inductive LAction where
  | write (f : ListenerClientData)
  | readEvent (e : Event)
  | invokeStart (e : Event)
  | invokeEnd (e : Event) (r : Option String)
  | buildData (d : Data)
deriving Repr, DecidableEq

/-- How a session ends.  `ok`: the inbound stream ended normally.  `err`: a
transport error surfaced through the session's `Result` (the question-mark
operator).  `panicked`: the process aborted via the `panic!` at lib.rs:150
(message: "Function returned a value although it is not marked as a
middleware."), bypassing the `Result` entirely. -/
inductive SessionOutcome where
  | ok
  | err (e : String)
  | panicked
deriving Repr, DecidableEq

/-- The receive loop of `Client::register_listener` (lib.rs:146-157) over the
list of inbound events: read an event, await the callback, panic if a value
was returned on a non-middleware listener, otherwise build (and discard) the
`MiddlewareResponse` and loop. -/
def runListener (l : Listener) (h : Event → Option String) :
    List Event → List LAction × SessionOutcome
  | [] => ([], .ok)
  | e :: rest =>
    let r := h e
    if !l.middlewareGet && r.isSome then
      ([.readEvent e, .invokeStart e, .invokeEnd e r], .panicked)
    else
      let p := runListener l h rest
      (.readEvent e :: .invokeStart e :: .invokeEnd e r ::
        .buildData (.response { msg := r }) :: p.1, p.2)

/-- `Client::register_listener` (lib.rs:127-160): writes the single
registration frame (the stream built at lines 136-138 holds exactly one
`ListenerClientData` carrying the `Listener`), then runs the receive loop. -/
def register_listener (l : Listener) (h : Event → Option String)
    (evs : List Event) : List LAction × SessionOutcome :=
  let p := runListener l h evs
  (.write { data := some (.listener l) } :: p.1, p.2)

/-- The frames written on the client-to-host stream during a listener session. -/
def writesOf (t : List LAction) : List ListenerClientData :=
  t.filterMap fun a =>
    match a with
    | .write f => some f
    | _ => none

/-- The `MiddlewareResponse` frames among the written frames. -/
def responseWritesOf (t : List LAction) : List MiddlewareResponse :=
  t.filterMap fun a =>
    match a with
    | .write { data := some (.response r) } => some r
    | _ => none

/-- The events read from the inbound stream, in order. -/
def readsOf (t : List LAction) : List Event :=
  t.filterMap fun a =>
    match a with
    | .readEvent e => some e
    | _ => none

/-- The events whose handler invocation ran to completion, in order. -/
def invocationsOf (t : List LAction) : List Event :=
  t.filterMap fun a =>
    match a with
    | .invokeEnd e _ => some e
    | _ => none

/-- The loop trace of a listener session that processes every event without a
misuse panic: for each event in order, a read, a complete handler invocation,
and the construction of the (unwritten) response value. -/
def happyTrace (h : Event → Option String) : List Event → List LAction
  | [] => []
  | e :: rest =>
    .readEvent e :: .invokeStart e :: .invokeEnd e (h e) ::
      .buildData (.response { msg := h e }) :: happyTrace h rest

deriving instance DecidableEq for Except

/-- One observable action of a command session: reading an invocation, the
handler invocation, and the automatic reply send with its result. -/
inductive CAction where
  | readInv (i : CmdInvocation)
  | invokeStart (i : CmdInvocation)
  | invokeEnd (i : CmdInvocation) (r : String)
  | sendAttempt (m : Message) (res : Except String Unit)
deriving Repr, DecidableEq

/-- The receive loop of `Client::register_cmd` (lib.rs:202-206) over the list
of inbound invocations: read an invocation, await the callback, then
`self.send_message(room, None, result, None).await?` — the reply message is
built by the session itself and a failed send is propagated by the
question-mark operator, ending the loop.  `sendRes k` is the transport result
of the k-th send of the session (sends are sequential). -/
def runCmd (h : CmdInvocation → String) (sendRes : Nat → Except String Unit) :
    Nat → List CmdInvocation → List CAction × SessionOutcome
  | _, [] => ([], .ok)
  | k, i :: rest =>
    let r := h i
    let m := send_message i.room none r none
    match sendRes k with
    | .ok _ =>
      let p := runCmd h sendRes (k + 1) rest
      (.readInv i :: .invokeStart i :: .invokeEnd i r ::
        .sendAttempt m (.ok ()) :: p.1, p.2)
    | .error e =>
      ([.readInv i, .invokeStart i, .invokeEnd i r,
        .sendAttempt m (.error e)], .err e)

/-- `Client::register_cmd` (lib.rs:182-209): registers the command, then runs
the receive loop starting at send index 0. -/
def register_cmd (h : CmdInvocation → String)
    (sendRes : Nat → Except String Unit) (invs : List CmdInvocation) :
    List CAction × SessionOutcome :=
  runCmd h sendRes 0 invs

/-- The messages the command session attempted to send, in order. -/
def sendsOf (t : List CAction) : List Message :=
  t.filterMap fun a =>
    match a with
    | .sendAttempt m _ => some m
    | _ => none

/-- The invocations whose handler ran to completion, in order. -/
def cmdInvocationsOf (t : List CAction) : List CmdInvocation :=
  t.filterMap fun a =>
    match a with
    | .invokeEnd i _ => some i
    | _ => none

/-- Modelled from the spec: the wire schema (proto/devzat.proto, compiled by
build.rs via tonic/prost, is not present under src/).  A protobuf message is a
list of tagged fields; per the spec, optional fields serialize as absent —
no field is emitted — exactly when the value is absent, and a non-optional
string equal to the proto3 default (the empty string) is omitted on the wire. -/
inductive WireField where
  | str (tag : Nat) (s : String)
deriving Repr, DecidableEq

/-- Modelled from the spec: prost encoding of `plugin::Message` — required
strings are emitted unless equal to the default empty string; the `optional`
fields `from` (tag 2) and `ephemeral_to` (tag 4) are emitted exactly when
present, even when the present value is the empty string. -/
def encodeMessage (m : Message) : List WireField :=
  (if m.room = "" then [] else [.str 1 m.room]) ++
  (match m.«from» with
   | none => []
   | some s => [.str 2 s]) ++
  (if m.msg = "" then [] else [.str 3 m.msg]) ++
  (match m.ephemeral_to with
   | none => []
   | some s => [.str 4 s])

/-- Modelled from the spec: decoding applies each field to the message under
construction; unknown tags are ignored. -/
def applyField (m : Message) : WireField → Message
  | .str t s =>
    if t = 1 then { m with room := s }
    else if t = 2 then { m with «from» := some s }
    else if t = 3 then { m with msg := s }
    else if t = 4 then { m with ephemeral_to := some s }
    else m

/-- Modelled from the spec: prost decoding of `plugin::Message`, starting from
the default message (empty strings, absent optionals). -/
def decodeMessage (fs : List WireField) : Message :=
  fs.foldl applyField { room := "", «from» := none, msg := "", ephemeral_to := none }

/-- The tags of the fields present on the wire. -/
def tagsOf (fs : List WireField) : List Nat :=
  fs.map fun f =>
    match f with
    | .str t _ => t

/-- Whether a session outcome is a typed error surfaced through the session's
returned `Result` (as opposed to normal completion or a process abort). -/
def SessionOutcome.isErr : SessionOutcome → Bool
  | .err _ => true
  | _ => false

/-- Whether a connect outcome is an error value returned to the caller. -/
def ConnectOutcome.isReturnedError : ConnectOutcome → Bool
  | .dialErr _ => true
  | _ => false

theorem runListener_no_write (l : Listener) (h : Event → Option String)
    (evs : List Event) (f : ListenerClientData) :
    LAction.write f ∉ (runListener l h evs).1 := by
  induction evs with
  | nil => simp [runListener]
  | cons e rest ih =>
    rw [runListener]
    split
    · simp
    · simp [ih]

theorem readsOf_happyTrace (h : Event → Option String) (evs : List Event) :
    readsOf (happyTrace h evs) = evs := by
  induction evs with
  | nil => rfl
  | cons e rest ih => simp [happyTrace, readsOf, List.filterMap_cons] at ih ⊢; exact ih

theorem invocationsOf_happyTrace (h : Event → Option String) (evs : List Event) :
    invocationsOf (happyTrace h evs) = evs := by
  induction evs with
  | nil => rfl
  | cons e rest ih =>
    simp [happyTrace, invocationsOf, List.filterMap_cons] at ih ⊢; exact ih

theorem runListener_happy (l : Listener) (h : Event → Option String)
    (evs : List Event)
    (hm : l.middlewareGet = true ∨ ∀ e ∈ evs, h e = none) :
    runListener l h evs = (happyTrace h evs, .ok) := by
  induction evs with
  | nil => rfl
  | cons e rest ih =>
    have hcond : (!l.middlewareGet && (h e).isSome) = false := by
      rcases hm with hm | hm
      · simp [hm]
      · simp [hm e (List.mem_cons_self e rest)]
    have ih' := ih (by
      rcases hm with hm | hm
      · exact Or.inl hm
      · exact Or.inr fun x hx => hm x (List.mem_cons_of_mem _ hx))
    rw [runListener]
    simp [hcond, ih', happyTrace]

theorem runListener_misuse (l : Listener) (h : Event → Option String)
    (pre : List Event) (e : Event) (post : List Event)
    (hm : l.middlewareGet = false) (hpre : ∀ x ∈ pre, h x = none)
    (he : (h e).isSome) :
    runListener l h (pre ++ e :: post) =
      (happyTrace h pre ++ [.readEvent e, .invokeStart e, .invokeEnd e (h e)],
        .panicked) := by
  induction pre with
  | nil =>
    rw [List.nil_append, runListener]
    simp [hm, he, happyTrace]
  | cons x xs ih =>
    have hx : h x = none := hpre x (List.mem_cons_self x xs)
    have ih' := ih (fun y hy => hpre y (List.mem_cons_of_mem _ hy))
    rw [List.cons_append, runListener]
    simp [hx, hm, ih', happyTrace]

theorem readsOf_nil : readsOf [] = [] := rfl

theorem invocationsOf_nil : invocationsOf [] = [] := rfl

theorem readsOf_append (s t : List LAction) :
    readsOf (s ++ t) = readsOf s ++ readsOf t := by
  simp [readsOf, List.filterMap_append]

theorem readsOf_cons (a : LAction) (t : List LAction) :
    readsOf (a :: t) =
      (match a with
       | LAction.readEvent e => [e]
       | _ => []) ++ readsOf t := by
  cases a <;> simp [readsOf, List.filterMap_cons]

theorem invocationsOf_append (s t : List LAction) :
    invocationsOf (s ++ t) = invocationsOf s ++ invocationsOf t := by
  simp [invocationsOf, List.filterMap_append]

theorem invocationsOf_cons (a : LAction) (t : List LAction) :
    invocationsOf (a :: t) =
      (match a with
       | LAction.invokeEnd e _ => [e]
       | _ => []) ++ invocationsOf t := by
  cases a <;> simp [invocationsOf, List.filterMap_cons]

theorem writesOf_cons (a : LAction) (t : List LAction) :
    writesOf (a :: t) =
      (match a with
       | LAction.write f => [f]
       | _ => []) ++ writesOf t := by
  cases a <;> simp [writesOf, List.filterMap_cons]

theorem responseWritesOf_cons (a : LAction) (t : List LAction) :
    responseWritesOf (a :: t) =
      (match a with
       | LAction.write { data := some (Data.response r) } => [r]
       | _ => []) ++ responseWritesOf t := by
  cases a with
  | write f =>
    obtain ⟨d⟩ := f
    cases d with
    | none => simp [responseWritesOf, List.filterMap_cons]
    | some x => cases x <;> simp [responseWritesOf, List.filterMap_cons]
  | readEvent e => simp [responseWritesOf, List.filterMap_cons]
  | invokeStart e => simp [responseWritesOf, List.filterMap_cons]
  | invokeEnd e r => simp [responseWritesOf, List.filterMap_cons]
  | buildData d => simp [responseWritesOf, List.filterMap_cons]

theorem writesOf_runListener (l : Listener) (h : Event → Option String)
    (evs : List Event) : writesOf (runListener l h evs).1 = [] := by
  induction evs with
  | nil => rfl
  | cons e rest ih =>
    simp only [runListener]
    split
    · rfl
    · simp [writesOf_cons, ih]

theorem responseWritesOf_runListener (l : Listener) (h : Event → Option String)
    (evs : List Event) : responseWritesOf (runListener l h evs).1 = [] := by
  induction evs with
  | nil => rfl
  | cons e rest ih =>
    simp only [runListener]
    split
    · rfl
    · simp [responseWritesOf_cons, ih]

/-- Claim C1: the spec requires a middleware listener to write a
`MiddlewareResponse` frame carrying a present replacement before the next
Event is read.  The code does not: the only frame ever written on the stream
of `register_listener` is the single registration frame, whatever the
middleware flag, the handler or the events; the `MiddlewareResponse` value is
constructed at lib.rs:156 and discarded (the TBD comment at lib.rs:153-154
leaves the write unimplemented). -/
theorem listener_response_never_written (l : Listener)
    (h : Event → Option String) (evs : List Event) :
    writesOf (register_listener l h evs).1 =
      [{ data := some (Data.listener l) }] ∧
    responseWritesOf (register_listener l h evs).1 = [] := by
  constructor
  · simp only [register_listener]
    simp [writesOf_cons, writesOf_runListener]
  · simp only [register_listener]
    simp [responseWritesOf_cons, responseWritesOf_runListener]

/-- Claim C2 (amended): on a listener session with `middleware=false`, a
handler returning a present replacement terminates the session by the
`panic!` at lib.rs:150 — an abrupt process abort, not a typed
`ProtocolMisuseError` surfaced through the session's result — and no further
Events are read afterward. -/
theorem listener_misuse_aborts (l : Listener) (h : Event → Option String)
    (pre : List Event) (e : Event) (post : List Event)
    (hm : l.middlewareGet = false) (hpre : ∀ x ∈ pre, h x = none)
    (he : (h e).isSome) :
    (register_listener l h (pre ++ e :: post)).2 = .panicked ∧
    SessionOutcome.isErr (register_listener l h (pre ++ e :: post)).2 = false ∧
    readsOf (register_listener l h (pre ++ e :: post)).1 = pre ++ [e] := by
  have key := runListener_misuse l h pre e post hm hpre he
  have k1 : (runListener l h (pre ++ e :: post)).1 =
      happyTrace h pre ++ [.readEvent e, .invokeStart e, .invokeEnd e (h e)] := by
    rw [key]
  have k2 : (runListener l h (pre ++ e :: post)).2 = .panicked := by
    rw [key]
  refine ⟨?_, ?_, ?_⟩
  · simpa [register_listener] using k2
  · simp [register_listener, k2, SessionOutcome.isErr]
  · simp [register_listener, k1, readsOf_cons, readsOf_append,
      readsOf_happyTrace, readsOf_nil]

/-- Claim C2, counterexample to the claim as stated: on a concrete
non-middleware listener whose handler returns a replacement, the session's
outcome is the process abort of `panic!`, not a typed error surfaced through
the session's result. -/
theorem listener_misuse_aborts_cex :
    (register_listener { middleware := some false, once := none, regex := none }
        (fun _ => some "x")
        [{ room := "#main", «from» := "alice", msg := "hi" }]).2
      = .panicked ∧
    SessionOutcome.isErr
      (register_listener { middleware := some false, once := none, regex := none }
          (fun _ => some "x")
          [{ room := "#main", «from» := "alice", msg := "hi" }]).2
      = false := by
  decide

/-- Claim C2, witness for the amended theorem at a concrete input. -/
theorem listener_misuse_aborts_witness :
    (register_listener { middleware := some false, once := none, regex := none }
        (fun e => some e.msg)
        ([] ++ { room := "#main", «from» := "alice", msg := "hi" } :: [])).2
      = .panicked ∧
    SessionOutcome.isErr
      (register_listener { middleware := some false, once := none, regex := none }
          (fun e => some e.msg)
          ([] ++ { room := "#main", «from» := "alice", msg := "hi" } :: [])).2
      = false ∧
    readsOf
      (register_listener { middleware := some false, once := none, regex := none }
          (fun e => some e.msg)
          ([] ++ { room := "#main", «from» := "alice", msg := "hi" } :: [])).1
      = [] ++ [{ room := "#main", «from» := "alice", msg := "hi" }] :=
  listener_misuse_aborts
    { middleware := some false, once := none, regex := none }
    (fun e => some e.msg) []
    { room := "#main", «from» := "alice", msg := "hi" } []
    rfl (fun x hx => absurd hx (List.not_mem_nil x)) rfl

/-- Claim C10: on a non-middleware listener the misuse is detected only from
the handler's returned value: the violating Event is read and its handler
invocation runs to completion exactly once (`invokeEnd` is in the trace),
and the session terminates immediately after, with no later action. -/
theorem listener_misuse_after_invocation (l : Listener)
    (h : Event → Option String) (pre : List Event) (e : Event)
    (post : List Event) (hm : l.middlewareGet = false)
    (hpre : ∀ x ∈ pre, h x = none) (he : (h e).isSome) :
    (register_listener l h (pre ++ e :: post)).1 =
      .write { data := some (.listener l) } ::
        (happyTrace h pre ++
          [.readEvent e, .invokeStart e, .invokeEnd e (h e)]) ∧
    (invocationsOf (register_listener l h (pre ++ e :: post)).1).count e = 1 := by
  have key := runListener_misuse l h pre e post hm hpre he
  have k1 : (runListener l h (pre ++ e :: post)).1 =
      happyTrace h pre ++ [.readEvent e, .invokeStart e, .invokeEnd e (h e)] := by
    rw [key]
  have hnotin : e ∉ pre := fun hin => by
    rw [hpre e hin] at he
    exact Bool.noConfusion he
  constructor
  · simp [register_listener, k1]
  · have : invocationsOf (register_listener l h (pre ++ e :: post)).1 =
        pre ++ [e] := by
      simp [register_listener, k1, invocationsOf_cons, invocationsOf_append,
        invocationsOf_happyTrace, invocationsOf_nil]
    rw [this, List.count_append, List.count_eq_zero.mpr hnotin]
    simp

/-- Claim C10, witness at a concrete input: one clean event, then a violating
event. -/
theorem listener_misuse_after_invocation_witness :
    (register_listener { middleware := none, once := none, regex := none }
        (fun e : Event => if e.msg = "bad" then some "rewrite" else none)
        ([{ room := "#main", «from» := "a", msg := "ok" }] ++
          { room := "#main", «from» := "b", msg := "bad" } ::
            [{ room := "#main", «from» := "c", msg := "late" }])).1 =
      .write { data := some (.listener
          { middleware := none, once := none, regex := none }) } ::
        (happyTrace (fun e : Event => if e.msg = "bad" then some "rewrite" else none)
            [{ room := "#main", «from» := "a", msg := "ok" }] ++
          [.readEvent { room := "#main", «from» := "b", msg := "bad" },
           .invokeStart { room := "#main", «from» := "b", msg := "bad" },
           .invokeEnd { room := "#main", «from» := "b", msg := "bad" }
             ((fun e : Event => if e.msg = "bad" then some "rewrite" else none)
               { room := "#main", «from» := "b", msg := "bad" })]) ∧
    (invocationsOf
        (register_listener { middleware := none, once := none, regex := none }
            (fun e : Event => if e.msg = "bad" then some "rewrite" else none)
            ([{ room := "#main", «from» := "a", msg := "ok" }] ++
              { room := "#main", «from» := "b", msg := "bad" } ::
                [{ room := "#main", «from» := "c", msg := "late" }])).1).count
      { room := "#main", «from» := "b", msg := "bad" } = 1 :=
  listener_misuse_after_invocation
    { middleware := none, once := none, regex := none }
    (fun e : Event => if e.msg = "bad" then some "rewrite" else none)
    [{ room := "#main", «from» := "a", msg := "ok" }]
    { room := "#main", «from» := "b", msg := "bad" }
    [{ room := "#main", «from» := "c", msg := "late" }]
    rfl (by decide) (by decide)

/-- Claim C3: on a listener session the handler is invoked exactly once per
inbound Event, in delivery order, with no overlap: the loop trace is exactly,
for each event in order, a read followed by a complete handler invocation
(begun and finished) before the next read.  Stated for sessions that do not
hit the misuse panic (middleware listeners, or handlers that never return a
replacement); a misusing session stops reading instead (claims C2/C10). -/
theorem listener_dispatch_in_order (l : Listener) (h : Event → Option String)
    (evs : List Event)
    (hm : l.middlewareGet = true ∨ ∀ e ∈ evs, h e = none) :
    (register_listener l h evs).1 =
      .write { data := some (.listener l) } :: happyTrace h evs ∧
    invocationsOf (register_listener l h evs).1 = evs ∧
    readsOf (register_listener l h evs).1 = evs ∧
    (register_listener l h evs).2 = .ok := by
  have key := runListener_happy l h evs hm
  have k1 : (runListener l h evs).1 = happyTrace h evs := by rw [key]
  have k2 : (runListener l h evs).2 = .ok := by rw [key]
  refine ⟨?_, ?_, ?_, ?_⟩
  · simp [register_listener, k1]
  · simp [register_listener, k1, invocationsOf_cons, invocationsOf_happyTrace]
  · simp [register_listener, k1, readsOf_cons, readsOf_happyTrace]
  · simpa [register_listener] using k2

/-- Claim C3, witness: a two-event middleware session. -/
theorem listener_dispatch_in_order_witness :
    (register_listener { middleware := some true, once := none, regex := none }
        (fun e : Event => some e.msg)
        [{ room := "#main", «from» := "a", msg := "hi" },
         { room := "#main", «from» := "b", msg := "yo" }]).1 =
      .write { data := some (.listener
          { middleware := some true, once := none, regex := none }) } ::
        happyTrace (fun e : Event => some e.msg)
          [{ room := "#main", «from» := "a", msg := "hi" },
           { room := "#main", «from» := "b", msg := "yo" }] ∧
    invocationsOf
        (register_listener { middleware := some true, once := none, regex := none }
            (fun e : Event => some e.msg)
            [{ room := "#main", «from» := "a", msg := "hi" },
             { room := "#main", «from» := "b", msg := "yo" }]).1 =
      [{ room := "#main", «from» := "a", msg := "hi" },
       { room := "#main", «from» := "b", msg := "yo" }] ∧
    readsOf
        (register_listener { middleware := some true, once := none, regex := none }
            (fun e : Event => some e.msg)
            [{ room := "#main", «from» := "a", msg := "hi" },
             { room := "#main", «from» := "b", msg := "yo" }]).1 =
      [{ room := "#main", «from» := "a", msg := "hi" },
       { room := "#main", «from» := "b", msg := "yo" }] ∧
    (register_listener { middleware := some true, once := none, regex := none }
        (fun e : Event => some e.msg)
        [{ room := "#main", «from» := "a", msg := "hi" },
         { room := "#main", «from» := "b", msg := "yo" }]).2 = .ok :=
  listener_dispatch_in_order
    { middleware := some true, once := none, regex := none }
    (fun e : Event => some e.msg)
    [{ room := "#main", «from» := "a", msg := "hi" },
     { room := "#main", «from» := "b", msg := "yo" }]
    (Or.inl rfl)

/-- Claim C9: a listener whose `middleware` flag is absent behaves exactly as
one with `middleware=false`: the prost getter reads the absent flag as
`false`, so the whole receive loop — reads, invocations, the misuse panic
included — is identical for the two listeners, for every handler and every
inbound event sequence. -/
theorem listener_middleware_absent_as_false (once : Option Bool)
    (regex : Option String) (h : Event → Option String) (evs : List Event) :
    runListener { middleware := none, once := once, regex := regex } h evs =
      runListener { middleware := some false, once := once, regex := regex }
        h evs := by
  induction evs with
  | nil => rfl
  | cons e rest ih =>
    rw [runListener, runListener]
    simp only [Listener.middlewareGet, Option.getD]
    rw [ih]

theorem sendsOf_cons (a : CAction) (t : List CAction) :
    sendsOf (a :: t) =
      (match a with
       | CAction.sendAttempt m _ => [m]
       | _ => []) ++ sendsOf t := by
  cases a <;> simp [sendsOf, List.filterMap_cons]

theorem cmdInvocationsOf_cons (a : CAction) (t : List CAction) :
    cmdInvocationsOf (a :: t) =
      (match a with
       | CAction.invokeEnd i _ => [i]
       | _ => []) ++ cmdInvocationsOf t := by
  cases a <;> simp [cmdInvocationsOf, List.filterMap_cons]

theorem sendsOf_nil : sendsOf [] = [] := rfl

theorem cmdInvocationsOf_nil : cmdInvocationsOf [] = [] := rfl

theorem runCmd_all_ok (h : CmdInvocation → String)
    (sendRes : Nat → Except String Unit) (hs : ∀ n, sendRes n = .ok ())
    (invs : List CmdInvocation) : ∀ k,
    sendsOf (runCmd h sendRes k invs).1 =
      invs.map (fun i => send_message i.room none (h i) none) ∧
    cmdInvocationsOf (runCmd h sendRes k invs).1 = invs ∧
    (runCmd h sendRes k invs).2 = .ok := by
  induction invs with
  | nil => intro k; exact ⟨rfl, rfl, rfl⟩
  | cons i rest ih =>
    intro k
    have ih' := ih (k + 1)
    rw [runCmd]
    simp only [hs k]
    simp [sendsOf_cons, cmdInvocationsOf_cons, ih'.1, ih'.2.1, ih'.2.2]

/-- Claim C4: for every CommandInvocation delivered to a command session, the
session itself issues exactly one send — built by `send_message` with the
invocation's room, `from` absent, the handler's reply as text, and
`ephemeral_to` absent (lib.rs:205) — one send per invocation, in order.
Stated for sessions whose sends all succeed (a failing send ends the session,
claim C5). -/
theorem cmd_reply_send (h : CmdInvocation → String)
    (sendRes : Nat → Except String Unit) (invs : List CmdInvocation)
    (hs : ∀ n, sendRes n = .ok ()) :
    sendsOf (register_cmd h sendRes invs).1 =
      invs.map (fun i => send_message i.room none (h i) none) ∧
    cmdInvocationsOf (register_cmd h sendRes invs).1 = invs ∧
    (register_cmd h sendRes invs).2 = .ok :=
  runCmd_all_ok h sendRes hs invs 0

/-- Claim C4, witness: the greet scenario — invocation in room `#main` with
args `World`, handler replying `Hello World!`, exactly one outbound send of
`{room: #main, from: absent, text: Hello World!, ephemeralTo: absent}`. -/
theorem cmd_reply_send_witness :
    sendsOf (register_cmd (fun i : CmdInvocation => "Hello " ++ i.args ++ "!")
        (fun _ => .ok ())
        [{ room := "#main", «from» := "u", args := "World" }]).1 =
      ([{ room := "#main", «from» := "u", args := "World" }] :
          List CmdInvocation).map
        (fun i => send_message i.room none ("Hello " ++ i.args ++ "!") none) ∧
    cmdInvocationsOf
        (register_cmd (fun i : CmdInvocation => "Hello " ++ i.args ++ "!")
          (fun _ => .ok ())
          [{ room := "#main", «from» := "u", args := "World" }]).1 =
      [{ room := "#main", «from» := "u", args := "World" }] ∧
    (register_cmd (fun i : CmdInvocation => "Hello " ++ i.args ++ "!")
        (fun _ => .ok ())
        [{ room := "#main", «from» := "u", args := "World" }]).2 = .ok :=
  cmd_reply_send (fun i : CmdInvocation => "Hello " ++ i.args ++ "!")
    (fun _ => .ok ())
    [{ room := "#main", «from» := "u", args := "World" }]
    (fun _ => rfl)

/-- Claim C4, the greet scenario evaluated: the single sent message is
literally `{room := "#main", from := none, msg := "Hello World!",
ephemeral_to := none}`. -/
theorem cmd_reply_send_greet :
    sendsOf (register_cmd (fun i : CmdInvocation => "Hello " ++ i.args ++ "!")
        (fun _ => .ok ())
        [{ room := "#main", «from» := "u", args := "World" }]).1 =
      [{ room := "#main", «from» := none, msg := "Hello World!",
         ephemeral_to := none }] := by
  decide

/-- Claim C5 (amended): when the automatic reply send for an invocation
fails, the error is propagated by the question-mark operator at lib.rs:205:
the session terminates with that send error as its result — it is not a
non-fatal per-invocation error — and no later invocation is read or handled.
The handler of the failing invocation did run, and its reply send was
attempted exactly once. -/
theorem cmd_send_failure_terminates (h : CmdInvocation → String)
    (sendRes : Nat → Except String Unit) (k : Nat) (e : String)
    (i : CmdInvocation) (rest : List CmdInvocation)
    (hf : sendRes k = .error e) :
    (runCmd h sendRes k (i :: rest)).2 = .err e ∧
    cmdInvocationsOf (runCmd h sendRes k (i :: rest)).1 = [i] ∧
    sendsOf (runCmd h sendRes k (i :: rest)).1 =
      [send_message i.room none (h i) none] := by
  rw [runCmd]
  simp only [hf]
  simp [sendsOf_cons, cmdInvocationsOf_cons, sendsOf_nil, cmdInvocationsOf_nil]

/-- Claim C5, counterexample to the claim as stated: with two queued
invocations and a failing send, the session result is the send error (the
failure is fatal) and the second invocation's handler never runs. -/
theorem cmd_send_failure_terminates_cex :
    (register_cmd (fun i : CmdInvocation => i.args)
        (fun _ => .error "broken pipe")
        [{ room := "#main", «from» := "u", args := "a" },
         { room := "#main", «from» := "u", args := "b" }]).2
      = .err "broken pipe" ∧
    cmdInvocationsOf
        (register_cmd (fun i : CmdInvocation => i.args)
          (fun _ => .error "broken pipe")
          [{ room := "#main", «from» := "u", args := "a" },
           { room := "#main", «from» := "u", args := "b" }]).1
      = [{ room := "#main", «from» := "u", args := "a" }] := by
  decide

/-- Claim C5, witness for the amended theorem. -/
theorem cmd_send_failure_terminates_witness :
    (runCmd (fun i : CmdInvocation => i.args) (fun _ => .error "down") 0
        ({ room := "#main", «from» := "u", args := "a" } ::
          [{ room := "#main", «from» := "u", args := "b" }])).2
      = .err "down" ∧
    cmdInvocationsOf
        (runCmd (fun i : CmdInvocation => i.args) (fun _ => .error "down") 0
          ({ room := "#main", «from» := "u", args := "a" } ::
            [{ room := "#main", «from» := "u", args := "b" }])).1
      = [{ room := "#main", «from» := "u", args := "a" }] ∧
    sendsOf
        (runCmd (fun i : CmdInvocation => i.args) (fun _ => .error "down") 0
          ({ room := "#main", «from» := "u", args := "a" } ::
            [{ room := "#main", «from» := "u", args := "b" }])).1
      = [send_message "#main" none
          ((fun i : CmdInvocation => i.args)
            { room := "#main", «from» := "u", args := "a" }) none] :=
  cmd_send_failure_terminates (fun i : CmdInvocation => i.args)
    (fun _ => .error "down") 0 "down"
    { room := "#main", «from» := "u", args := "a" }
    [{ room := "#main", «from» := "u", args := "b" }] rfl

/-- Claim C6 (amended): the only validation `Client::new` performs on the
token is the header-value parse of `Bearer <token>` (lib.rs:34), which is not
ASCII-representability — obs-text bytes 0x80-0xFF pass, only control
characters (other than tab) and DEL fail; and when that parse fails the
client panics on `parse().unwrap()` instead of returning a typed `AuthError`;
moreover the channel dial (lib.rs:50) runs first, so a dial failure is
reported even when the token would also fail to parse. -/
theorem connect_token_validation (token e : String)
    (hv : isValidHeaderValue ("Bearer " ++ token) = false) :
    Client.new (Except.ok ()) token = .panickedInvalidToken ∧
    ConnectOutcome.isReturnedError (Client.new (Except.ok ()) token) = false ∧
    Client.new (Except.error e) token = .dialErr e := by
  refine ⟨?_, ?_, rfl⟩
  · simp [Client.new, hv]
  · simp [Client.new, hv, ConnectOutcome.isReturnedError]

/-- Claim C6, counterexample to the claim as stated, on both counts: for a
token containing a newline the outcome of `Client::new` is the `unwrap`
panic, not an error value (of any kind, let alone a typed AuthError) returned
to the caller; and a token containing a non-ASCII character — hence not
representable as a single ASCII header value — is accepted outright, with no
failure of any kind, because the header parser accepts obs-text bytes. -/
theorem connect_token_validation_cex :
    Client.new (Except.ok ()) "a\nb" = .panickedInvalidToken ∧
    ConnectOutcome.isReturnedError (Client.new (Except.ok ()) "a\nb")
      = false ∧
    Client.new (Except.ok ()) "é" = .ok { token := "Bearer é" } := by
  decide

/-- Claim C6, witness for the amended theorem. -/
theorem connect_token_validation_witness :
    Client.new (Except.ok ()) "bad\ttok\n" = .panickedInvalidToken ∧
    ConnectOutcome.isReturnedError (Client.new (Except.ok ()) "bad\ttok\n")
      = false ∧
    Client.new (Except.error "connection refused") "bad\ttok\n"
      = .dialErr "connection refused" :=
  connect_token_validation "bad\ttok\n" "connection refused" (by decide)

theorem getHeader_insertHeader (meta : List (String × String)) (k v : String) :
    getHeader (insertHeader meta k v) k = some v := by
  have hnone : (meta.filter (fun p => !(p.1 == k))).find?
      (fun p => p.1 == k) = none := by
    rw [List.find?_eq_none]
    intro p hp
    have := List.of_mem_filter hp
    simpa using this
  rw [getHeader, insertHeader, List.find?_append, hnone]
  simp

/-- Claim C7: the interceptor attaches the stored header value — which
`Client::new` sets to `Bearer <token>` — as `authorization` on every request
alike; any two calls through the same client carry byte-identical values.
The interceptor has no notion of the call kind, so unary and streaming calls
are covered uniformly. -/
theorem auth_header_uniform (dial : Except String Unit) (token : String)
    (a : AuthInterceptor) (hc : Client.new dial token = .ok a)
    (m1 m2 : List (String × String)) :
    getHeader (a.call m1) "authorization" = some ("Bearer " ++ token) ∧
    getHeader (a.call m2) "authorization" =
      getHeader (a.call m1) "authorization" := by
  have ha : a.token = "Bearer " ++ token := by
    cases dial with
    | error e => simp [Client.new] at hc
    | ok u =>
      by_cases hvv : isValidHeaderValue ("Bearer " ++ token) = true
      · simp [Client.new, hvv] at hc
        rw [← hc]
      · simp [Client.new, hvv] at hc
  constructor
  · rw [AuthInterceptor.call, getHeader_insertHeader, ha]
  · rw [AuthInterceptor.call, AuthInterceptor.call,
      getHeader_insertHeader, getHeader_insertHeader]

/-- Claim C7, witness: a fresh client with token `t`; an empty-metadata call
and one that already carries headers (including a stale authorization value,
which the interceptor replaces) both end up with `authorization: Bearer t`. -/
theorem auth_header_uniform_witness :
    getHeader (AuthInterceptor.call { token := "Bearer t" } []) "authorization"
      = some ("Bearer " ++ "t") ∧
    getHeader (AuthInterceptor.call { token := "Bearer t" }
        [("content-type", "application/grpc"), ("authorization", "stale")])
        "authorization"
      = getHeader (AuthInterceptor.call { token := "Bearer t" } [])
          "authorization" :=
  auth_header_uniform (Except.ok ()) "t" { token := "Bearer t" } (by decide)
    [] [("content-type", "application/grpc"), ("authorization", "stale")]

/-- Claim C8: a `Message` built by `send_message` round-trips through the
wire encoding exactly — in particular the optional `from` and `ephemeral_to`
fields are present on the wire exactly when they were given as `some` (a
`none` emits no field at all, never an empty string), and decoding restores
presence versus absence precisely. -/
theorem send_message_optional_roundtrip (room : String) (f : Option String)
    (msg : String) (et : Option String) :
    decodeMessage (encodeMessage (send_message room f msg et)) =
      send_message room f msg et ∧
    (tagsOf (encodeMessage (send_message room f msg et))).contains 2 =
      f.isSome ∧
    (tagsOf (encodeMessage (send_message room f msg et))).contains 4 =
      et.isSome := by
  cases f <;> cases et <;>
    by_cases hr : room = "" <;> by_cases hs : msg = "" <;>
      simp [send_message, encodeMessage, decodeMessage, applyField, tagsOf,
        hr, hs]
